import Mathlib

/-!
# The disabled clock of diff-match-patch (`dmp_clock_traits_none.h`)

A shallow embedding of `dmp::traits::clock_traits<void>::null_clock`.

* `int64_t` is an integer together with the proof that it lies between
  `INT64_MIN` and `INT64_MAX`.
* `time += milliseconds` is wrap-around addition: the exact sum when it
  fits, the sum reduced modulo `2^64` into the signed range otherwise (C++
  leaves the overflowing case undefined; the statements that need exact
  sums carry the in-range hypothesis).
* `addMilliseconds` mutates its receiver and returns a reference to it; the
  embedding passes the state explicitly and returns both the receiver after
  the call and the value the returned reference denotes.
-/

namespace dmp.traits

/-! ## Machine integers -/

/-- The value of `std::numeric_limits<int64_t>::lowest()`, that is `-2^63`. -/
def INT64_MIN : Int := -9223372036854775808

/-- The value of `std::numeric_limits<int64_t>::max()`, that is `2^63 - 1`. -/
def INT64_MAX : Int := 9223372036854775807

/-- A signed 64-bit integer: its value and the bounds it respects. -/
structure int64_t where
  val : Int
  hmin : INT64_MIN ≤ val
  hmax : val ≤ INT64_MAX
  deriving DecidableEq

/-- Reduction of an arbitrary integer into the signed 64-bit range, modulo `2^64`. -/
def wrap64 (i : Int) : Int :=
  (i + 9223372036854775808) % 18446744073709551616 - 9223372036854775808

/-- Conversion of an integer to `int64_t` (modulo `2^64`). -/
def int64_t.ofInt (i : Int) : int64_t :=
  ⟨wrap64 i, by unfold wrap64 INT64_MIN; omega, by unfold wrap64 INT64_MAX; omega⟩

/-- Addition of two `int64_t` values, `a + b` in the source. -/
def int64_t.add (a b : int64_t) : int64_t :=
  int64_t.ofInt (a.val + b.val)

/-- Negation of an `int64_t` value, `-a` in the source. -/
def int64_t.neg (a : int64_t) : int64_t :=
  int64_t.ofInt (-a.val)

/-! ## `null_clock` -/

/-- Source: `static constexpr type null_value = std::numeric_limits<type>::lowest();` -/
def null_value : int64_t :=
  ⟨INT64_MIN, by decide, by decide⟩

/-- Source: `struct null_clock` with its single field `type time = null_value;`. -/
structure null_clock where
  time : int64_t := null_value
  deriving DecidableEq

namespace null_clock

/-- Source: `constexpr null_clock() noexcept = default;` -/
def ctor_default : null_clock := {}

/-- Source: `null_clock(type _time) : time(_time) {}` -/
def ctor (_time : int64_t) : null_clock := { time := _time }

/-- Source: `static constexpr null_clock now() noexcept { return { 0 }; }` -/
def now : null_clock := ctor ⟨0, by decide, by decide⟩

/-- Source: `null_clock& addMilliseconds(type milliseconds) { time += milliseconds; return *this; }`

The first component is the receiver after the call, the second the value of
the returned reference `*this`. -/
def addMilliseconds (self : null_clock) (milliseconds : int64_t) : null_clock × null_clock :=
  let self1 : null_clock := { self with time := int64_t.add self.time milliseconds }
  (self1, self1)

/-- Source: `bool operator>(const null_clock& o) const { return time > o.time; }` -/
def gt (self o : null_clock) : Bool :=
  decide (self.time.val > o.time.val)

/-- The body of `hitDeadline` with the reading of `now()` passed in as `cur`:
`if (time == null_value) return false; return cur.time > time;` -/
def hitDeadlineAt (cur self : null_clock) : Bool :=
  if self.time = null_value then
    false
  else
    decide (cur.time.val > self.time.val)

/-- Source: `bool hitDeadline() const { if (time == null_value) return false; return now().time > time; }` -/
def hitDeadline (self : null_clock) : Bool :=
  hitDeadlineAt now self

/-- The instance left after the calls `addMilliseconds(n)` for the `n` of `ns`,
from left to right, each one on the reference the previous one returned. -/
def addMillisecondsSeq (self : null_clock) (ns : List int64_t) : null_clock :=
  ns.foldl (fun c n => (addMilliseconds c n).2) self

end null_clock

/-! ## Auxiliary facts -/

theorem int64_t.eq_of_val_eq (a b : int64_t) (h : a.val = b.val) : a = b := by
  cases a
  cases b
  simp only [int64_t.mk.injEq]
  exact h

theorem wrap64_of_inRange (i : Int) (hlo : INT64_MIN ≤ i) (hhi : i ≤ INT64_MAX) :
    wrap64 i = i := by
  unfold wrap64
  unfold INT64_MIN at hlo
  unfold INT64_MAX at hhi
  omega

theorem int64_t.add_val_of_inRange (a b : int64_t)
    (hlo : INT64_MIN ≤ a.val + b.val) (hhi : a.val + b.val ≤ INT64_MAX) :
    (int64_t.add a b).val = a.val + b.val :=
  wrap64_of_inRange (a.val + b.val) hlo hhi

theorem int64_t.val_ne_min_of_ne_null (t : int64_t) (h : t ≠ null_value) :
    INT64_MIN < t.val := by
  have hne : t.val ≠ INT64_MIN := fun hv => h (int64_t.eq_of_val_eq t null_value hv)
  have hlo := t.hmin
  omega

theorem wrap64_add_assoc (t a b : Int) :
    wrap64 (wrap64 (t + a) + b) = wrap64 (t + wrap64 (a + b)) := by
  unfold wrap64
  omega

theorem null_clock.hitDeadline_eq_false_iff (x : null_clock) :
    null_clock.hitDeadline x = false ↔ (x.time = null_value ∨ 0 ≤ x.time.val) := by
  unfold null_clock.hitDeadline null_clock.hitDeadlineAt
  by_cases h : x.time = null_value
  · simp [h]
  · simp [h, null_clock.now, null_clock.ctor]

theorem null_clock.addMillisecondsSeq_time_of_nonneg (ns : List int64_t) :
    ∀ x : null_clock, 0 ≤ x.time.val → (∀ n ∈ ns, 0 ≤ n.val) →
      x.time.val + (ns.map (fun n => n.val)).sum ≤ INT64_MAX →
      (null_clock.addMillisecondsSeq x ns).time.val
        = x.time.val + (ns.map (fun n => n.val)).sum := by
  induction ns with
  | nil =>
    intro x _ _ _
    simp [null_clock.addMillisecondsSeq]
  | cons n rest ih =>
    intro x hx hnn hsum
    have hn : 0 ≤ n.val := hnn n (List.mem_cons_self n rest)
    have hrest : ∀ m ∈ rest, 0 ≤ m.val := fun m hm => hnn m (List.mem_cons_of_mem n hm)
    have hrsum : 0 ≤ (rest.map (fun m => m.val)).sum :=
      List.sum_nonneg (by
        intro v hv
        obtain ⟨m, hm, rfl⟩ := List.mem_map.mp hv
        exact hrest m hm)
    simp only [List.map_cons, List.sum_cons] at hsum
    have hmin : INT64_MIN ≤ x.time.val + n.val := by
      unfold INT64_MIN
      omega
    have hstep : (null_clock.addMilliseconds x n).2.time.val = x.time.val + n.val :=
      int64_t.add_val_of_inRange x.time n hmin (by omega)
    have hrec := ih (null_clock.addMilliseconds x n).2 (by omega) hrest (by omega)
    simp only [null_clock.addMillisecondsSeq, List.foldl_cons, List.map_cons, List.sum_cons]
    simp only [null_clock.addMillisecondsSeq] at hrec
    omega

theorem wrap64_add_neg_cancel (t n : Int) (hlo : INT64_MIN ≤ t) (hhi : t ≤ INT64_MAX) :
    wrap64 (wrap64 (t + n) + wrap64 (-n)) = t := by
  unfold wrap64
  unfold INT64_MIN at hlo
  unfold INT64_MAX at hhi
  omega

theorem wrap64_add_eq_min_iff (t n : Int) (hlo : INT64_MIN ≤ n) (hhi : n ≤ INT64_MAX) :
    wrap64 (t + n) = INT64_MIN ↔ n = wrap64 (INT64_MIN - t) := by
  unfold wrap64
  unfold INT64_MIN at hlo ⊢
  unfold INT64_MAX at hhi
  omega

theorem null_clock.hitDeadline_eq_true_iff (x : null_clock) :
    null_clock.hitDeadline x = true ↔ (x.time ≠ null_value ∧ x.time.val < 0) := by
  unfold null_clock.hitDeadline null_clock.hitDeadlineAt
  by_cases h : x.time = null_value
  · simp [h]
  · simp [h, null_clock.now, null_clock.ctor]

/-! ## The claims -/

open null_clock

/-- C1 (as stated, refuted): `now().addMilliseconds(-1).hitDeadline()` is true, and so is
`null_clock().addMilliseconds(1).hitDeadline()`: a disabled clock moved to a negative,
non-sentinel time reports its deadline as hit. -/
theorem C1_hitDeadline_true_after_negative_budget :
    hitDeadline (addMillisecondsSeq now [⟨-1, by decide, by decide⟩]) = true
      ∧ hitDeadline (addMillisecondsSeq ctor_default [⟨1, by decide, by decide⟩]) = true := by
  decide

/-- C1 (amended): for the disabled variant `hitDeadline()` is false on the default-constructed
instance, on `now()`, and on `now()` followed by any finite sequence of `addMilliseconds(n)`
calls whose arguments are non-negative and whose total stays within the int64 range. -/
theorem C1_hitDeadline_false_for_nonneg_budgets (ns : List int64_t)
    (hnn : ∀ n ∈ ns, 0 ≤ n.val) (hsum : (ns.map (fun n => n.val)).sum ≤ INT64_MAX) :
    hitDeadline ctor_default = false
      ∧ hitDeadline now = false
      ∧ hitDeadline (addMillisecondsSeq now ns) = false := by
  refine ⟨by decide, by decide, ?_⟩
  have h0 : now.time.val = 0 := rfl
  have ht := addMillisecondsSeq_time_of_nonneg ns now (by omega) hnn (by omega)
  have hs : 0 ≤ (ns.map (fun n => n.val)).sum :=
    List.sum_nonneg (by
      intro v hv
      obtain ⟨m, hm, rfl⟩ := List.mem_map.mp hv
      exact hnn m hm)
  exact (hitDeadline_eq_false_iff _).mpr (Or.inr (by omega))

/-- C1 (amended), at the budgets 1000 then 0. -/
theorem C1_hitDeadline_false_for_nonneg_budgets_witness :
    hitDeadline ctor_default = false
      ∧ hitDeadline now = false
      ∧ hitDeadline (addMillisecondsSeq now
          [⟨1000, by decide, by decide⟩, ⟨0, by decide, by decide⟩]) = false :=
  C1_hitDeadline_false_for_nonneg_budgets
    [⟨1000, by decide, by decide⟩, ⟨0, by decide, by decide⟩] (by decide) (by decide)

/-- C2: an instance whose stored time is the sentinel `null_value` has not hit its deadline,
whatever instance stands for the reading of `now()`; in particular `hitDeadline()` is false. -/
theorem C2_sentinel_never_hits (cur x : null_clock) (h : x.time = null_value) :
    hitDeadlineAt cur x = false ∧ hitDeadline x = false := by
  unfold hitDeadline hitDeadlineAt
  simp [h]

/-- C2, at the default-constructed instance against a clock reading of `INT64_MAX`. -/
theorem C2_sentinel_never_hits_witness :
    hitDeadlineAt (ctor ⟨INT64_MAX, by decide, by decide⟩) ctor_default = false
      ∧ hitDeadline ctor_default = false :=
  C2_sentinel_never_hits (ctor ⟨INT64_MAX, by decide, by decide⟩) ctor_default rfl

/-- C3: for an instance x whose stored time is not the sentinel, `x.hitDeadline()` is true
exactly when `now().time > x.time`; when `x.time` equals `now().time` it is false. -/
theorem C3_hitDeadline_iff_strictly_past (x : null_clock) (h : x.time ≠ null_value) :
    (hitDeadline x = true ↔ now.time.val > x.time.val)
      ∧ (x.time = now.time → hitDeadline x = false) := by
  unfold hitDeadline hitDeadlineAt
  constructor
  · simp [h]
  · intro heq
    simp [h, heq]

/-- C3, at the instance with stored time -5 (past, hence hit). -/
theorem C3_hitDeadline_iff_strictly_past_witness :
    (hitDeadline (ctor ⟨-5, by decide, by decide⟩) = true
        ↔ now.time.val > (ctor ⟨-5, by decide, by decide⟩).time.val)
      ∧ ((ctor ⟨-5, by decide, by decide⟩).time = now.time
        → hitDeadline (ctor ⟨-5, by decide, by decide⟩) = false) :=
  C3_hitDeadline_iff_strictly_past (ctor ⟨-5, by decide, by decide⟩) (by decide)

/-- C4: for every budget `n >= 0`, `now().addMilliseconds(n).hitDeadline()` is false. -/
theorem C4_fresh_deadline_not_hit (n : int64_t) (h : 0 ≤ n.val) :
    hitDeadline (addMilliseconds now n).2 = false := by
  have h0 : now.time.val = 0 := rfl
  have hmax := n.hmax
  have hv : (addMilliseconds now n).2.time.val = now.time.val + n.val :=
    int64_t.add_val_of_inRange now.time n (by unfold INT64_MIN; omega) (by omega)
  exact (hitDeadline_eq_false_iff _).mpr (Or.inr (by omega))

/-- C4, at the budgets 0 and `INT64_MAX`. -/
theorem C4_fresh_deadline_not_hit_witness :
    hitDeadline (addMilliseconds now ⟨0, by decide, by decide⟩).2 = false
      ∧ hitDeadline (addMilliseconds now ⟨INT64_MAX, by decide, by decide⟩).2 = false :=
  ⟨C4_fresh_deadline_not_hit ⟨0, by decide, by decide⟩ (by decide),
   C4_fresh_deadline_not_hit ⟨INT64_MAX, by decide, by decide⟩ (by decide)⟩

/-- C5: `x.addMilliseconds(a).addMilliseconds(b)` leaves the same stored time as
`x.addMilliseconds(a+b)`, with int64 arithmetic modulo 2^64; when `x.time + a`,
`x.time + a + b` and `a + b` all lie in the int64 range, both stored times are the exact
integer `x.time + a + b`. -/
theorem C5_addMilliseconds_assoc (x : null_clock) (a b : int64_t) :
    (addMilliseconds (addMilliseconds x a).2 b).1.time
        = (addMilliseconds x (int64_t.add a b)).1.time
      ∧ (INT64_MIN ≤ x.time.val + a.val ∧ x.time.val + a.val ≤ INT64_MAX →
         INT64_MIN ≤ x.time.val + a.val + b.val ∧ x.time.val + a.val + b.val ≤ INT64_MAX →
         INT64_MIN ≤ a.val + b.val ∧ a.val + b.val ≤ INT64_MAX →
         (addMilliseconds (addMilliseconds x a).2 b).1.time.val = x.time.val + a.val + b.val
           ∧ (addMilliseconds x (int64_t.add a b)).1.time.val = x.time.val + a.val + b.val) := by
  constructor
  · apply int64_t.eq_of_val_eq
    exact wrap64_add_assoc x.time.val a.val b.val
  · intro h1 h2 h3
    have e1 : (int64_t.add x.time a).val = x.time.val + a.val :=
      int64_t.add_val_of_inRange x.time a h1.1 h1.2
    have e3 : (int64_t.add a b).val = a.val + b.val :=
      int64_t.add_val_of_inRange a b h3.1 h3.2
    constructor
    · show (int64_t.add (int64_t.add x.time a) b).val = x.time.val + a.val + b.val
      rw [int64_t.add_val_of_inRange (int64_t.add x.time a) b (by omega) (by omega), e1]
    · show (int64_t.add x.time (int64_t.add a b)).val = x.time.val + a.val + b.val
      rw [int64_t.add_val_of_inRange x.time (int64_t.add a b) (by omega) (by omega), e3]
      omega

/-- C5, at `x.time = 10`, `a = 20`, `b = -5`: both stored times are 25. -/
theorem C5_addMilliseconds_assoc_witness :
    (addMilliseconds (addMilliseconds (ctor ⟨10, by decide, by decide⟩)
        ⟨20, by decide, by decide⟩).2 ⟨-5, by decide, by decide⟩).1.time.val = 10 + 20 + -5
      ∧ (addMilliseconds (ctor ⟨10, by decide, by decide⟩)
          (int64_t.add ⟨20, by decide, by decide⟩ ⟨-5, by decide, by decide⟩)).1.time.val
        = 10 + 20 + -5 :=
  (C5_addMilliseconds_assoc (ctor ⟨10, by decide, by decide⟩)
    ⟨20, by decide, by decide⟩ ⟨-5, by decide, by decide⟩).2
    (by decide) (by decide) (by decide)

/-- C6: when `t + n` lies in the int64 range, `x.addMilliseconds(n)` leaves the receiver with
stored time exactly `t + n`, and the returned instance is that updated receiver. -/
theorem C6_addMilliseconds_exact (x : null_clock) (n : int64_t)
    (hlo : INT64_MIN ≤ x.time.val + n.val) (hhi : x.time.val + n.val ≤ INT64_MAX) :
    (addMilliseconds x n).1.time.val = x.time.val + n.val
      ∧ (addMilliseconds x n).2 = (addMilliseconds x n).1 :=
  ⟨int64_t.add_val_of_inRange x.time n hlo hhi, rfl⟩

/-- C6, at `t = 100` and `n = -250`. -/
theorem C6_addMilliseconds_exact_witness :
    (addMilliseconds (ctor ⟨100, by decide, by decide⟩) ⟨-250, by decide, by decide⟩).1.time.val
        = 100 + -250
      ∧ (addMilliseconds (ctor ⟨100, by decide, by decide⟩) ⟨-250, by decide, by decide⟩).2
        = (addMilliseconds (ctor ⟨100, by decide, by decide⟩) ⟨-250, by decide, by decide⟩).1 :=
  C6_addMilliseconds_exact (ctor ⟨100, by decide, by decide⟩) ⟨-250, by decide, by decide⟩
    (by decide) (by decide)

/-- C7: `A > B` is true exactly when `A.time > B.time` as signed 64-bit integers. -/
theorem C7_gt_iff_time_gt (A B : null_clock) :
    gt A B = true ↔ A.time.val > B.time.val := by
  unfold gt
  exact decide_eq_true_iff

/-- C8: for the default-constructed instance S and every B whose stored time is not the
sentinel, `B > S` is true and `S > B` is false. -/
theorem C8_sentinel_below_real_deadlines (B : null_clock) (h : B.time ≠ null_value) :
    gt B ctor_default = true ∧ gt ctor_default B = false := by
  have hlt := int64_t.val_ne_min_of_ne_null B.time h
  have hS : ctor_default.time.val = INT64_MIN := rfl
  unfold gt
  constructor
  · exact decide_eq_true (by omega)
  · exact decide_eq_false (by omega)

/-- C8, at the instance with stored time `INT64_MIN + 1`. -/
theorem C8_sentinel_below_real_deadlines_witness :
    gt (ctor ⟨-9223372036854775807, by decide, by decide⟩) ctor_default = true
      ∧ gt ctor_default (ctor ⟨-9223372036854775807, by decide, by decide⟩) = false :=
  C8_sentinel_below_real_deadlines (ctor ⟨-9223372036854775807, by decide, by decide⟩)
    (by decide)

/-- C9: a default-constructed `null_clock` has `time == null_value`, `null_value` is `-2^63`,
and every int64 value t satisfies `t >= null_value`. -/
theorem C9_sentinel_is_minimum :
    ctor_default.time = null_value
      ∧ null_value.val = -(2 ^ 63 : Int)
      ∧ ∀ t : int64_t, t.val ≥ null_value.val := by
  refine ⟨rfl, by decide, ?_⟩
  intro t
  exact t.hmin

/-- C10 (as stated, refuted): the stored time of `now()` is not the sentinel `null_value`. -/
theorem C10_now_is_not_sentinel : now.time ≠ null_value := by
  decide

/-- C10 (amended): `now()` of the disabled variant always returns the instance whose stored
time is 0, a value above the sentinel `null_value`. -/
theorem C10_now_time_is_zero : now.time.val = 0 ∧ null_value.val < now.time.val := by
  decide

/-- C11 (as stated, refuted): the non-sentinel instance with stored time `INT64_MIN + 1` is
left at the sentinel by `addMilliseconds(-1)`, and `now()` by `addMilliseconds(INT64_MIN)`;
neither sum leaves the int64 range. -/
theorem C11_addMilliseconds_reaches_sentinel :
    (ctor ⟨-9223372036854775807, by decide, by decide⟩).time ≠ null_value
      ∧ (addMilliseconds (ctor ⟨-9223372036854775807, by decide, by decide⟩)
          ⟨-1, by decide, by decide⟩).1.time = null_value
      ∧ now.time ≠ null_value
      ∧ (addMilliseconds now ⟨INT64_MIN, by decide, by decide⟩).1.time = null_value := by
  decide

/-- C11 (amended): for an instance whose stored time is not the sentinel, `addMilliseconds(n)`
leaves the sentinel as stored time for exactly one argument, `n = null_value - time` modulo
2^64, and for no other; in particular never for `n >= 0` with `time + n` in the int64 range. -/
theorem C11_addMilliseconds_sentinel_iff (x : null_clock) (n : int64_t)
    (h : x.time ≠ null_value) :
    ((addMilliseconds x n).1.time = null_value ↔ n.val = wrap64 (null_value.val - x.time.val))
      ∧ (0 ≤ n.val → x.time.val + n.val ≤ INT64_MAX →
          (addMilliseconds x n).1.time ≠ null_value) := by
  have hiff : (addMilliseconds x n).1.time = null_value
      ↔ n.val = wrap64 (null_value.val - x.time.val) := by
    constructor
    · intro he
      have hv : wrap64 (x.time.val + n.val) = INT64_MIN := congrArg int64_t.val he
      exact (wrap64_add_eq_min_iff x.time.val n.val n.hmin n.hmax).mp hv
    · intro hn
      apply int64_t.eq_of_val_eq
      exact (wrap64_add_eq_min_iff x.time.val n.val n.hmin n.hmax).mpr hn
  refine ⟨hiff, ?_⟩
  intro hn hmax he
  have hlt := int64_t.val_ne_min_of_ne_null x.time h
  have hv : (addMilliseconds x n).1.time.val = x.time.val + n.val :=
    int64_t.add_val_of_inRange x.time n (by omega) hmax
  have hmin : (addMilliseconds x n).1.time.val = INT64_MIN := congrArg int64_t.val he
  omega

/-- C11 (amended), at `now()` with the budget 1000: the stored time is not the sentinel. -/
theorem C11_addMilliseconds_sentinel_iff_witness :
    (addMilliseconds now ⟨1000, by decide, by decide⟩).1.time ≠ null_value :=
  (C11_addMilliseconds_sentinel_iff now ⟨1000, by decide, by decide⟩ (by decide)).2
    (by decide) (by decide)

/-- C12: for instances A and B with `A > B` and `B.time` not the sentinel, if
`A.hitDeadline()` is true then `B.hitDeadline()` is true. -/
theorem C12_hitDeadline_monotone (A B : null_clock) (hgt : gt A B = true)
    (hB : B.time ≠ null_value) (hA : hitDeadline A = true) :
    hitDeadline B = true := by
  have hlt : A.time.val > B.time.val := by
    unfold gt at hgt
    exact of_decide_eq_true hgt
  have hAneg := ((hitDeadline_eq_true_iff A).mp hA).2
  exact (hitDeadline_eq_true_iff B).mpr ⟨hB, by omega⟩

/-- C12, at `A.time = -1` and `B.time = -2`. -/
theorem C12_hitDeadline_monotone_witness :
    hitDeadline (ctor ⟨-2, by decide, by decide⟩) = true :=
  C12_hitDeadline_monotone (ctor ⟨-1, by decide, by decide⟩) (ctor ⟨-2, by decide, by decide⟩)
    (by decide) (by decide) (by decide)

/-- C13: when `A.time + n` and `B.time + n` both lie in the int64 range, `A > B` holds exactly
when `A.addMilliseconds(n) > B.addMilliseconds(n)`. -/
theorem C13_addMilliseconds_preserves_order (A B : null_clock) (n : int64_t)
    (hA : INT64_MIN ≤ A.time.val + n.val ∧ A.time.val + n.val ≤ INT64_MAX)
    (hB : INT64_MIN ≤ B.time.val + n.val ∧ B.time.val + n.val ≤ INT64_MAX) :
    gt A B = true ↔ gt (addMilliseconds A n).2 (addMilliseconds B n).2 = true := by
  have eA : (addMilliseconds A n).2.time.val = A.time.val + n.val :=
    int64_t.add_val_of_inRange A.time n hA.1 hA.2
  have eB : (addMilliseconds B n).2.time.val = B.time.val + n.val :=
    int64_t.add_val_of_inRange B.time n hB.1 hB.2
  unfold gt
  rw [decide_eq_true_iff, decide_eq_true_iff, eA, eB]
  omega

/-- C13, at `A.time = 7`, `B.time = 3` and `n = -10`. -/
theorem C13_addMilliseconds_preserves_order_witness :
    gt (ctor ⟨7, by decide, by decide⟩) (ctor ⟨3, by decide, by decide⟩) = true
      ↔ gt (addMilliseconds (ctor ⟨7, by decide, by decide⟩) ⟨-10, by decide, by decide⟩).2
          (addMilliseconds (ctor ⟨3, by decide, by decide⟩) ⟨-10, by decide, by decide⟩).2
        = true :=
  C13_addMilliseconds_preserves_order (ctor ⟨7, by decide, by decide⟩)
    (ctor ⟨3, by decide, by decide⟩) ⟨-10, by decide, by decide⟩ (by decide) (by decide)

/-- C14: `x.addMilliseconds(n).addMilliseconds(-n)` has the same stored time as x for every
int64 n, with int64 arithmetic modulo 2^64 (so also for `n = -2^63`, whose negation wraps to
itself), and `x.addMilliseconds(0)` leaves the stored time unchanged. -/
theorem C14_addMilliseconds_invertible (x : null_clock) (n : int64_t) :
    (addMilliseconds (addMilliseconds x n).2 (int64_t.neg n)).1.time = x.time
      ∧ (int64_t.neg null_value = null_value
          ∧ (addMilliseconds (addMilliseconds x null_value).2 (int64_t.neg null_value)).1.time
            = x.time)
      ∧ (addMilliseconds x ⟨0, by decide, by decide⟩).1.time = x.time := by
  have hinv : ∀ m : int64_t,
      (addMilliseconds (addMilliseconds x m).2 (int64_t.neg m)).1.time = x.time := by
    intro m
    apply int64_t.eq_of_val_eq
    exact wrap64_add_neg_cancel x.time.val m.val x.time.hmin x.time.hmax
  refine ⟨hinv n, ⟨by decide, hinv null_value⟩, ?_⟩
  apply int64_t.eq_of_val_eq
  show wrap64 (x.time.val + 0) = x.time.val
  rw [Int.add_zero]
  exact wrap64_of_inRange x.time.val x.time.hmin x.time.hmax

end dmp.traits
